import Mathlib

/-!
Shallow embedding of the conversational agent engine
(`src/agents`): message history with token-budget truncation
(`utils/history_util.py`), the tool dispatcher (`utils/tool_util.py`),
MCP connection lifecycle (`utils/connections.py`), and the request
parameter assembly of the orchestrator (`agent.py`).

Python integers are modelled as `Int`; Python dicts used as string-keyed
maps are modelled as `String → Option _`; exceptions are modelled as
explicit outcome values (the dispatcher catches them all).
-/

namespace AgentSpec

/-! ## Data model: content blocks, messages, token usage -/

/-- One content block of a message.  Only the fields the history code
touches are modelled: the type tag, the text payload, and the optional
`cache_control` annotation added by `format_for_api`. -/
structure Block where
  btype : String
  text : String
  cache_control : Option String
deriving DecidableEq, Repr

/-- One turn of the conversation: `{"role": ..., "content": [...]}`. -/
structure Message where
  role : String
  content : List Block
deriving DecidableEq, Repr

/-- Usage record of an API response.  Missing cache fields read 0 via
`getattr(usage, ..., 0)` in the source, so they are plain `Int` fields
that callers set to 0 when absent. -/
structure Usage where
  input_tokens : Int
  output_tokens : Int
  cache_read_input_tokens : Int
  cache_creation_input_tokens : Int
deriving DecidableEq, Repr

/-- State of `MessageHistory` (history_util.py): the retained turns, the
running token total, the context-window budget, one `(input, output)`
cost pair per assistant turn, and the caching flag. -/
structure History where
  messages : List Message
  total_tokens : Int
  context_window_tokens : Int
  message_tokens : List (Int × Int)
  enable_caching : Bool
deriving DecidableEq, Repr

/-- The `content` argument of `add_message`: either a raw string or a
list of content blocks. -/
inductive HContent where
  | ofString : String → HContent
  | ofBlocks : List Block → HContent
deriving DecidableEq, Repr

/-- String content is wrapped as a single text block
(`[{"type": "text", "text": content}]`). -/
def wrapContent : HContent → List Block
  | .ofString s => [{ btype := "text", text := s, cache_control := none }]
  | .ofBlocks bs => bs

/-- `MessageHistory.add_message`: append the turn; if the role is
`assistant` and a usage record is present, derive the incremental input
cost `total_input - self.total_tokens`, push the cost pair, and bump
the running total. -/
def addMessage (h : History) (role : String) (content : HContent)
    (usage : Option Usage) : History :=
  let blocks := wrapContent content
  let h1 := { h with messages := h.messages ++ [{ role := role, content := blocks }] }
  if role = "assistant" then
    match usage with
    | some u =>
        let total_input :=
          u.input_tokens + u.cache_read_input_tokens + u.cache_creation_input_tokens
        let current_turn_input := total_input - h1.total_tokens
        { h1 with
          message_tokens := h1.message_tokens ++ [(current_turn_input, u.output_tokens)],
          total_tokens := h1.total_tokens + current_turn_input + u.output_tokens }
    | none => h1
  else h1

/-- `TRUNCATION_NOTICE_TOKENS = 25`. -/
def TRUNCATION_NOTICE_TOKENS : Int := 25

/-- The fixed placeholder turn written over the new oldest message after
an eviction. -/
def TRUNCATION_MESSAGE : Message :=
  { role := "user",
    content := [{ btype := "text",
                  text := "[Earlier history has been truncated.]",
                  cache_control := none }] }

/-- One iteration of the `while` loop of `MessageHistory.truncate`:
`remove_message_pair()` (two `messages.pop(0)` plus, when a cost pair
exists, popping it and subtracting it from the total), then — if both
lists are still non-empty — the rewrite of the new oldest turn to the
truncation notice with input cost 25, adjusting the total by
`25 - original_input`.  The loop guard guarantees `message_tokens ≠ []`
and `2 ≤ messages.length` at every call. -/
def truncStep (h : History) : History :=
  match h.message_tokens with
  | [] => { h with messages := h.messages.drop 2 }
  | (i, o) :: rest =>
    let m1 := h.messages.drop 2
    let t1 := h.total_tokens - (i + o)
    match m1, rest with
    | [], _ =>
        { h with messages := [], message_tokens := rest, total_tokens := t1 }
    | m0 :: mrest, [] =>
        { h with messages := m0 :: mrest, message_tokens := [], total_tokens := t1 }
    | _ :: mrest, (original_input, original_output) :: rest2 =>
        { h with
          messages := TRUNCATION_MESSAGE :: mrest,
          message_tokens := (TRUNCATION_NOTICE_TOKENS, original_output) :: rest2,
          total_tokens := t1 + (TRUNCATION_NOTICE_TOKENS - original_input) }

/-- The guard of the `while` loop of `truncate`. -/
def truncGuard (h : History) : Prop :=
  h.message_tokens ≠ [] ∧ 2 ≤ h.messages.length ∧
    h.context_window_tokens < h.total_tokens

instance (h : History) : Decidable (truncGuard h) := by
  unfold truncGuard; infer_instance

/-- The eviction loop, run with explicit fuel.  Each iteration pops
exactly one cost pair, so `h.message_tokens.length` fuel is always
enough; `truncateLoop_fuel_irrel` below proves any larger fuel gives
the same result. -/
def truncateLoop : Nat → History → History
  | 0, h => h
  | n + 1, h => if truncGuard h then truncateLoop n (truncStep h) else h

/-- `MessageHistory.truncate`: early return when already within budget,
otherwise run the eviction loop. -/
def truncate (h : History) : History :=
  if h.total_tokens ≤ h.context_window_tokens then h
  else truncateLoop h.message_tokens.length h

/-! ## format_for_api -/

/-- `{**block, "cache_control": {"type": "ephemeral"}}`. -/
def addCacheControl (b : Block) : Block := { b with cache_control := some "ephemeral" }

/-- Rebuild the turn list with the last turn's content blocks annotated
with the cache marker (`result[-1]["content"] = [...]`); all earlier
turns are passed through unchanged. -/
def setLastCached : List Message → List Message
  | [] => []
  | [m] => [{ role := m.role, content := m.content.map addCacheControl }]
  | m :: m2 :: ms => m :: setLastCached (m2 :: ms)

/-- `MessageHistory.format_for_api`: shallow copies of all turns, with
the last turn's blocks annotated when caching is enabled and the
history is non-empty. -/
def formatForApi (h : History) : List Message :=
  if h.enable_caching ∧ h.messages ≠ [] then setLastCached h.messages
  else h.messages

/-- `format_for_api` as a state transformer: the method reads
`self.messages` and assigns only to the local `result`, so the
post-state equals the pre-state. -/
def formatForApiState (h : History) : List Message × History :=
  (formatForApi h, h)

/-! ## Tool dispatcher (tool_util.py)

Python exceptions are modelled as explicit outcome values.  The
dispatcher's `try` block distinguishes `KeyError` from every other
exception, so the exception model keeps that tag. -/

/-- A Python value returned by a tool, as far as `str(result)` needs. -/
inductive PyVal where
  | vInt : Int → PyVal
  | vStr : String → PyVal
deriving DecidableEq, Repr

/-- `str(result)`. -/
def pyStr : PyVal → String
  | .vInt n => toString n
  | .vStr s => s

/-- An exception raised by a tool's `execute`: the dispatcher's
`except KeyError` clause fires before `except Exception`, so the two
classes are distinguished. -/
inductive PyExc where
  | keyError : String → PyExc
  | other : String → PyExc
deriving DecidableEq, Repr

/-- Outcome of `await tool.execute(**call.input)`. -/
inductive ExecOutcome where
  | ret : PyVal → ExecOutcome
  | exc : PyExc → ExecOutcome
deriving DecidableEq, Repr

/-- A tool as the dispatcher sees it: just its `execute` capability. -/
structure ToolImpl where
  execute : List (String × PyVal) → ExecOutcome

/-- A `tool_use` block from the API response. -/
structure ToolCall where
  id : String
  name : String
  input : List (String × PyVal)
deriving DecidableEq, Repr

/-- The tool-result dict built by `_execute_single_tool`; `is_error` is
`none` when the key is absent from the dict. -/
structure ToolResult where
  ttype : String
  tool_use_id : String
  content : String
  is_error : Option Bool
deriving DecidableEq, Repr

/-- `_execute_single_tool`: look the tool up (`tool_dict[call.name]`
raises `KeyError` when absent), run it, and fold every exception into
an error result.  A `KeyError` — whether from the lookup or raised
inside `execute` — is caught by the first `except` clause and reported
as `Tool <name> not found`. -/
def executeSingleTool (call : ToolCall)
    (tool_dict : String → Option ToolImpl) : ToolResult :=
  match tool_dict call.name with
  | none =>
      { ttype := "tool_result", tool_use_id := call.id,
        content := "Tool \x27" ++ call.name ++ "\x27 not found",
        is_error := some true }
  | some t =>
      match t.execute call.input with
      | .ret v =>
          { ttype := "tool_result", tool_use_id := call.id,
            content := pyStr v, is_error := none }
      | .exc (.keyError _) =>
          { ttype := "tool_result", tool_use_id := call.id,
            content := "Tool \x27" ++ call.name ++ "\x27 not found",
            is_error := some true }
      | .exc (.other m) =>
          { ttype := "tool_result", tool_use_id := call.id,
            content := "Error executing tool: " ++ m,
            is_error := some true }

/-- `execute_tools`: in parallel mode `asyncio.gather` returns the
per-task results in argument order regardless of completion order; in
sequential mode the list comprehension awaits each call in turn.  Both
modes therefore map `executeSingleTool` over the batch in order. -/
def executeTools (tool_calls : List ToolCall)
    (tool_dict : String → Option ToolImpl) (parallel : Bool) : List ToolResult :=
  if parallel then tool_calls.map (fun c => executeSingleTool c tool_dict)
  else tool_calls.map (fun c => executeSingleTool c tool_dict)

/-! ## MCP connection lifecycle (connections.py) -/

/-- Outcome of awaiting one lifecycle operation (a context-manager
enter/exit or `session.initialize()`). -/
inductive CtxBehavior where
  | ok : CtxBehavior
  | raises : String → CtxBehavior
deriving DecidableEq, Repr

/-- Does this optional context hold a behaviour that raises? -/
def isRaises : Option CtxBehavior → Bool
  | some (.raises _) => true
  | _ => false

/-- The two context fields of an open `MCPConnection` at `__aexit__`
time, each with the behaviour its `__aexit__` call would have. -/
structure ConnState where
  session_ctx : Option CtxBehavior
  rw_ctx : Option CtxBehavior
deriving DecidableEq, Repr

/-- Observable outcome of `MCPConnection.__aexit__`: which cleanup
calls were made, what was printed, what escaped, and the final field
values set in the `finally` block. -/
structure AExitResult where
  sessionExitCalled : Bool
  rwExitCalled : Bool
  logged : Option String
  raised : Option String
  session_ctx : Option CtxBehavior
  rw_ctx : Option CtxBehavior
deriving DecidableEq, Repr

/-- `MCPConnection.__aexit__`: one `try` block runs
`self._session_ctx.__aexit__` and then `self._rw_ctx.__aexit__`; a
single `except Exception` prints the error; the `finally` block resets
the fields.  Because both awaits share the one `try`, an exception from
the session exit jumps straight to the handler and the transport exit
is never reached. -/
def connAExit (s : ConnState) : AExitResult :=
  match s.session_ctx with
  | some (.raises m) =>
      { sessionExitCalled := true, rwExitCalled := false,
        logged := some ("Error during cleanup: " ++ m), raised := none,
        session_ctx := none, rw_ctx := none }
  | _ =>
      match s.rw_ctx with
      | some (.raises m) =>
          { sessionExitCalled := s.session_ctx.isSome, rwExitCalled := true,
            logged := some ("Error during cleanup: " ++ m), raised := none,
            session_ctx := none, rw_ctx := none }
      | _ =>
          { sessionExitCalled := s.session_ctx.isSome,
            rwExitCalled := s.rw_ctx.isSome,
            logged := none, raised := none,
            session_ctx := none, rw_ctx := none }

/-- Behaviour of the three awaited steps of `MCPConnection.__aenter__`
after `_create_rw_context()` returns: the transport enter, the session
enter, and the `initialize()` handshake. -/
structure EnterBehavior where
  rwEnter : CtxBehavior
  sessionEnter : CtxBehavior
  handshake : CtxBehavior
deriving DecidableEq, Repr

/-- Observable outcome of `__aenter__`: the exception that escapes (if
any) and how many times the transport context's `__aexit__` was called
on the way.  The method body contains no cleanup call at all, so the
count is 0 on every path. -/
structure EnterResult where
  raised : Option String
  rwCloseCalls : Nat
deriving DecidableEq, Repr

/-- `MCPConnection.__aenter__`: enter the transport context, enter the
session context, run the handshake; any failure propagates immediately
and nothing is released. -/
def connAEnter (b : EnterBehavior) : EnterResult :=
  match b.rwEnter with
  | .raises m => { raised := some m, rwCloseCalls := 0 }
  | .ok =>
      match b.sessionEnter with
      | .raises m => { raised := some m, rwCloseCalls := 0 }
      | .ok =>
          match b.handshake with
          | .raises m => { raised := some m, rwCloseCalls := 0 }
          | .ok => { raised := none, rwCloseCalls := 0 }

/-- Outcome of one iteration of `setup_mcp_connections` for one server
config: whether the connection was registered on the `AsyncExitStack`,
transport close calls made so far, what escapes the loop body (the
`except Exception` clause catches everything), and whether the server
was skipped. -/
structure SetupOutcome where
  registeredOnStack : Bool
  rwCloseCalls : Nat
  raisedOut : Option String
  serverSkipped : Bool
deriving DecidableEq, Repr

/-- `setup_mcp_connections` for one server:
`stack.enter_async_context(connection)` registers the connection only
after `__aenter__` returns; when `__aenter__` raises, nothing is on the
stack, the `except` clause logs and the server is skipped — so the
transport channel is never closed, by the stack or anyone else. -/
def setupOne (b : EnterBehavior) : SetupOutcome :=
  match connAEnter b with
  | { raised := some _, rwCloseCalls := k } =>
      { registeredOnStack := false, rwCloseCalls := k,
        raisedOut := none, serverSkipped := true }
  | { raised := none, rwCloseCalls := k } =>
      { registeredOnStack := true, rwCloseCalls := k,
        raisedOut := none, serverSkipped := false }

/-! ## Request parameter assembly (agent.py) -/

/-- `Tool.to_dict()` output (tools/base.py); the JSON schema is opaque
here. -/
structure ToolSpec where
  name : String
  description : String
  input_schema : String
deriving DecidableEq, Repr

/-- A value of the params dict passed to `client.messages.create`.
`pHeaders` is the mapping type required of an `extra_headers` value. -/
inductive PValue where
  | pStr : String → PValue
  | pInt : Int → PValue
  | pRat : Rat → PValue
  | pMsgs : List Message → PValue
  | pTools : List ToolSpec → PValue
  | pHeaders : (String → Option String) → PValue

/-- The `ModelConfig` fields used by `_prepare_message_params`. -/
structure AgentConfig where
  model : String
  max_tokens : Int
  temperature : Rat
deriving Repr

/-- The Agent fields feeding one request. -/
structure AgentState where
  config : AgentConfig
  system : String
  history : History
  tools : List ToolSpec
  message_params : String → Option PValue

/-- `{**a, **b}`: a later entry wins on key collision. -/
def pyMerge {α : Type} (a b : String → Option α) : String → Option α :=
  fun k =>
    match b k with
    | some v => some v
    | none => a k

/-- `d.pop(key)`'s effect on the dict: the key is removed. -/
def removeKey {α : Type} (d : String → Option α) (key : String) :
    String → Option α :=
  fun x => if x = key then none else d x

/-- The computed defaults of `_prepare_message_params`. -/
def baseParams (ag : AgentState) : String → Option PValue := fun k =>
  if k = "model" then some (.pStr ag.config.model)
  else if k = "max_tokens" then some (.pInt ag.config.max_tokens)
  else if k = "temperature" then some (.pRat ag.config.temperature)
  else if k = "system" then some (.pStr ag.system)
  else if k = "messages" then some (.pMsgs (formatForApi ag.history))
  else if k = "tools" then some (.pTools ag.tools)
  else none

/-- `_prepare_message_params`: the base dict with `**self.message_params`
spread over it. -/
def prepareMessageParams (ag : AgentState) : String → Option PValue :=
  pyMerge (baseParams ag) ag.message_params

/-- The built-in default header map of `_agent_loop`. -/
def defaultHeaders : String → Option String :=
  fun k => if k = "anthropic-beta" then some "code-execution-2025-05-22" else none

/-- Request assembly in `_agent_loop`: prepare the params; when
`extra_headers` is present pop it and merge it entry-by-entry over the
default header map, otherwise use the defaults.  Returns `none` when
the caller put a non-mapping under `extra_headers` (Python would raise
`TypeError` on the `{**default_headers, **custom_headers}` spread). -/
def buildRequest (ag : AgentState) :
    Option ((String → Option PValue) × (String → Option String)) :=
  let params := prepareMessageParams ag
  match params "extra_headers" with
  | none => some (params, defaultHeaders)
  | some (.pHeaders custom) =>
      some (removeKey params "extra_headers", pyMerge defaultHeaders custom)
  | some _ => none

/-! ## Invariants and auxiliary measures -/

/-- Structural invariant of the data model (§3 of the spec): turns are
retained in adjacent User→Assistant pairs, with one cost pair per
assistant turn, possibly followed by one trailing user turn, so the
turn count is `2 * #costs` or `2 * #costs + 1`. -/
def historyWF (h : History) : Prop :=
  h.messages.length = 2 * h.message_tokens.length ∨
  h.messages.length = 2 * h.message_tokens.length + 1

instance (h : History) : Decidable (historyWF h) := by
  unfold historyWF; infer_instance

/-- Every recorded cost pair has input at least the placeholder
constant 25 and non-negative output. -/
def costsOK (l : List (Int × Int)) : Prop :=
  ∀ p ∈ l, TRUNCATION_NOTICE_TOKENS ≤ p.1 ∧ 0 ≤ p.2

instance (l : List (Int × Int)) : Decidable (costsOK l) := by
  unfold costsOK; infer_instance

/-- No persisted content block carries the cache marker. -/
def msgsMarkerFree (ms : List Message) : Prop :=
  ∀ m ∈ ms, ∀ b ∈ m.content, b.cache_control = none

instance (ms : List Message) : Decidable (msgsMarkerFree ms) := by
  unfold msgsMarkerFree; infer_instance

/-- The role the next turn must have in an alternating sequence. -/
def otherRole (r : String) : String :=
  if r = "user" then "assistant" else "user"

/-- `rolesAlt r ms`: the roles of `ms` alternate starting with `r`. -/
def rolesAlt : String → List Message → Bool
  | _, [] => true
  | r, m :: ms => (m.role == r) && rolesAlt (otherRole r) ms

/-- Number of iterations the eviction loop performs (with the given
fuel), used to bound the loop length. -/
def truncateIters : Nat → History → Nat
  | 0, _ => 0
  | n + 1, h => if truncGuard h then truncateIters n (truncStep h) + 1 else 0

/-! ## Concrete inputs used by the scenario theorems and witnesses -/

/-- A plain user turn. -/
def uMsg : Message :=
  { role := "user",
    content := [{ btype := "text", text := "hi", cache_control := none }] }

/-- A plain assistant turn. -/
def aMsg : Message :=
  { role := "assistant",
    content := [{ btype := "text", text := "ok", cache_control := none }] }

/-- A well-formed over-budget history: one user+assistant pair costing
`150 + 50` against a budget of 100. -/
def w1 : History :=
  { messages := [uMsg, aMsg], total_tokens := 200, context_window_tokens := 100,
    message_tokens := [(150, 50)], enable_caching := true }

/-- Scenario history (spec §8): empty, budget 30, initial total 0. -/
def c2s0 : History :=
  { messages := [], total_tokens := 0, context_window_tokens := 30,
    message_tokens := [], enable_caching := true }

def c2s1 : History := addMessage c2s0 "user" (.ofString "q1") none

def c2s2 : History := addMessage c2s1 "assistant" (.ofString "a1") (some ⟨10, 5, 0, 0⟩)

def c2s3 : History := addMessage c2s2 "user" (.ofString "q2") none

def c2s4 : History := addMessage c2s3 "assistant" (.ofString "a2") (some ⟨25, 5, 0, 0⟩)

def c2s5 : History := addMessage c2s4 "user" (.ofString "q3") none

def c2s6 : History := addMessage c2s5 "assistant" (.ofString "a3") (some ⟨40, 5, 0, 0⟩)

def c2s7 : History := truncate c2s6

/-- Control-loop trace for the pairing-parity analysis: budget 10,
user input, one assistant turn costing `100 + 5`, then the tool-result
user turn, exactly as `_agent_loop` appends them. -/
def lt0 : History :=
  { messages := [], total_tokens := 0, context_window_tokens := 10,
    message_tokens := [], enable_caching := true }

def lt1 : History := addMessage lt0 "user" (.ofString "hi") none

def lt2 : History := truncate lt1

def lt3 : History := addMessage lt2 "assistant" (.ofString "working") (some ⟨100, 5, 0, 0⟩)

def lt4 : History := addMessage lt3 "user" (.ofString "tool results") none

def lt5 : History := truncate lt4

/-- A tool whose `execute` raises a Python `KeyError`. -/
def keyErrTool : ToolImpl := { execute := fun _ => .exc (.keyError "x") }

/-- A tool that returns the integer 1 (the spec's `echo` scenario). -/
def echoTool : ToolImpl := { execute := fun _ => .ret (.vInt 1) }

/-- A tool whose `execute` raises an ordinary exception. -/
def failTool : ToolImpl := { execute := fun _ => .exc (.other "boom") }

/-- Registry containing only `echo`, bound to the KeyError-raising
tool. -/
def keyErrDict : String → Option ToolImpl :=
  fun n => if n = "echo" then some keyErrTool else none

/-- Registry for the dispatch scenario: `echo` returns 1, `fail`
raises, nothing else exists. -/
def scenarioDict : String → Option ToolImpl :=
  fun n => if n = "echo" then some echoTool
  else if n = "fail" then some failTool
  else none

/-- `{id: "t1", name: "echo", args: {x: 1}}`. -/
def callEcho : ToolCall := { id := "t1", name := "echo", input := [("x", .vInt 1)] }

/-- `{id: "t2", name: "missing", args: {}}`. -/
def callMissing : ToolCall := { id := "t2", name := "missing", input := [] }

/-- Caller-supplied header map `{X-Custom: v}` (no `anthropic-beta`
entry). -/
def w8headers : String → Option String :=
  fun k => if k = "X-Custom" then some "v" else none

/-- Caller override map: custom headers plus a colliding `temperature`
key. -/
def w8mp : String → Option PValue := fun k =>
  if k = "extra_headers" then some (.pHeaders w8headers)
  else if k = "temperature" then some (.pInt 7)
  else none

/-- Concrete agent state for the parameter-merge witness. -/
def w8 : AgentState :=
  { config := { model := "claude-sonnet-4-20250514", max_tokens := 4096, temperature := 1 },
    system := "sys", history := c2s0, tools := [], message_params := w8mp }

/-- Marker-free two-turn history with caching enabled. -/
def w9 : History :=
  { messages := [uMsg, aMsg], total_tokens := 20, context_window_tokens := 100,
    message_tokens := [(10, 10)], enable_caching := true }

/-! # Theorems -/

/-! ## Lemmas about one eviction iteration -/

theorem truncStep_facts (h : History) (hne : h.message_tokens ≠ [])
    (hlen : 2 ≤ h.messages.length) :
    (truncStep h).context_window_tokens = h.context_window_tokens ∧
    (truncStep h).message_tokens.length + 1 = h.message_tokens.length ∧
    (truncStep h).messages.length = h.messages.length - 2 := by
  obtain ⟨msgs, total, cw, toks, cache⟩ := h
  rcases toks with _ | ⟨⟨i, o⟩, rest⟩
  · simp at hne
  · rcases hdrop : msgs.drop 2 with _ | ⟨m0, mrest⟩ <;>
      rcases rest with _ | ⟨⟨oi, oo⟩, rest2⟩ <;>
        have hl := congrArg List.length hdrop <;>
          simp only [List.length_drop] at hl <;>
            simp only [truncStep, hdrop] <;> simp_all

theorem truncStep_total_le (h : History) (hne : h.message_tokens ≠ [])
    (hC : costsOK h.message_tokens) :
    (truncStep h).total_tokens ≤ h.total_tokens ∧
    costsOK (truncStep h).message_tokens := by
  obtain ⟨msgs, total, cw, toks, cache⟩ := h
  rcases toks with _ | ⟨⟨i, o⟩, rest⟩
  · simp at hne
  · obtain ⟨hi, ho⟩ := hC (i, o) (List.mem_cons_self _ _)
    have htail : ∀ p ∈ rest, TRUNCATION_NOTICE_TOKENS ≤ p.1 ∧ 0 ≤ p.2 :=
      fun p hp => hC p (List.mem_cons_of_mem _ hp)
    simp only [TRUNCATION_NOTICE_TOKENS] at hi
    rcases hdrop : msgs.drop 2 with _ | ⟨m0, mrest⟩ <;>
      rcases rest with _ | ⟨⟨oi, oo⟩, rest2⟩ <;>
        simp only [truncStep, hdrop]
    · exact ⟨by simp; omega, by intro p hp; simp at hp⟩
    · exact ⟨by simp; omega, fun p hp => htail p hp⟩
    · exact ⟨by simp; omega, by intro p hp; simp at hp⟩
    · obtain ⟨hoi, hoo⟩ := htail (oi, oo) (List.mem_cons_self _ _)
      simp only [TRUNCATION_NOTICE_TOKENS] at hoi
      refine ⟨by simp [TRUNCATION_NOTICE_TOKENS]; omega, ?_⟩
      intro p hp
      rcases List.mem_cons.mp hp with hp1 | hp2
      · subst hp1
        exact ⟨le_refl _, hoo⟩
      · exact htail p (List.mem_cons_of_mem _ hp2)

theorem truncStep_alt (h : History) (hg : truncGuard h)
    (halt : rolesAlt "user" h.messages = true) :
    rolesAlt "user" (truncStep h).messages = true := by
  obtain ⟨hne, hlen, _⟩ := hg
  obtain ⟨msgs, total, cw, toks, cache⟩ := h
  rcases toks with _ | ⟨⟨i, o⟩, rest⟩
  · simp at hne
  · rcases msgs with _ | ⟨a, _ | ⟨b, ms⟩⟩
    · simp at hlen
    · simp at hlen
    · simp only [rolesAlt, otherRole, if_pos rfl, Bool.and_eq_true, beq_iff_eq] at halt
      obtain ⟨ha, hb, hms⟩ := halt
      rw [if_neg (by decide)] at hms
      have hdrop : (a :: b :: ms).drop 2 = ms := rfl
      rcases ms with _ | ⟨m0, mrest⟩ <;>
        rcases rest with _ | ⟨⟨oi, oo⟩, rest2⟩ <;>
          simp only [truncStep, hdrop]
      · simp [rolesAlt]
      · simp [rolesAlt]
      · exact hms
      · simp only [rolesAlt, otherRole, Bool.and_eq_true, beq_iff_eq] at hms ⊢
        obtain ⟨hm0, hmrest⟩ := hms
        exact ⟨rfl, by simpa using hmrest⟩

/-! ## Lemmas about the eviction loop -/

theorem truncateLoop_cw (n : Nat) (h : History) :
    (truncateLoop n h).context_window_tokens = h.context_window_tokens := by
  induction n generalizing h with
  | zero => rfl
  | succ n ih =>
    by_cases hg : truncGuard h
    · simp only [truncateLoop, if_pos hg]
      rw [ih]
      exact (truncStep_facts h hg.1 hg.2.1).1
    · simp only [truncateLoop, if_neg hg]

theorem truncateLoop_total_le (n : Nat) (h : History)
    (hC : costsOK h.message_tokens) :
    (truncateLoop n h).total_tokens ≤ h.total_tokens := by
  induction n generalizing h with
  | zero => exact le_refl _
  | succ n ih =>
    by_cases hg : truncGuard h
    · have hs := truncStep_total_le h hg.1 hC
      simp only [truncateLoop, if_pos hg]
      exact le_trans (ih _ hs.2) hs.1
    · simp only [truncateLoop, if_neg hg]
      exact le_refl _

theorem truncateLoop_post (n : Nat) (h : History)
    (hn : h.message_tokens.length ≤ n) (hwf : historyWF h) :
    (truncateLoop n h).total_tokens ≤ (truncateLoop n h).context_window_tokens ∨
    (truncateLoop n h).messages.length < 2 := by
  induction n generalizing h with
  | zero =>
    right
    have h0 : h.message_tokens.length = 0 := Nat.le_zero.mp hn
    unfold historyWF at hwf
    simp only [truncateLoop]
    omega
  | succ n ih =>
    by_cases hg : truncGuard h
    · simp only [truncateLoop, if_pos hg]
      obtain ⟨hcw, hlt, hlm⟩ := truncStep_facts h hg.1 hg.2.1
      apply ih
      · omega
      · unfold historyWF at hwf ⊢
        have h2 := hg.2.1
        omega
    · simp only [truncateLoop, if_neg hg]
      unfold truncGuard at hg
      by_cases h1 : h.message_tokens = []
      · right
        unfold historyWF at hwf
        rw [h1] at hwf
        simp only [List.length_nil] at hwf
        omega
      · by_cases h2 : 2 ≤ h.messages.length
        · left
          by_contra h3
          exact hg ⟨h1, h2, by omega⟩
        · right; omega

theorem truncateLoop_parity (n : Nat) (h : History) :
    (truncateLoop n h).messages.length % 2 = h.messages.length % 2 := by
  induction n generalizing h with
  | zero => rfl
  | succ n ih =>
    by_cases hg : truncGuard h
    · simp only [truncateLoop, if_pos hg]
      obtain ⟨hcw, hlt, hlm⟩ := truncStep_facts h hg.1 hg.2.1
      have h2 := hg.2.1
      rw [ih]
      omega
    · simp only [truncateLoop, if_neg hg]

theorem truncateLoop_alt (n : Nat) (h : History)
    (halt : rolesAlt "user" h.messages = true) :
    rolesAlt "user" (truncateLoop n h).messages = true := by
  induction n generalizing h with
  | zero => exact halt
  | succ n ih =>
    by_cases hg : truncGuard h
    · simp only [truncateLoop, if_pos hg]
      exact ih _ (truncStep_alt h hg halt)
    · simp only [truncateLoop, if_neg hg]
      exact halt

theorem truncateLoop_fuel (n : Nat) (h : History)
    (hn : h.message_tokens.length ≤ n) :
    truncateLoop (n + 1) h = truncateLoop n h := by
  induction n generalizing h with
  | zero =>
    have h0 : h.message_tokens = [] := List.length_eq_zero.mp (Nat.le_zero.mp hn)
    have hg : ¬truncGuard h := fun hg => hg.1 h0
    simp only [truncateLoop, if_neg hg]
  | succ n ih =>
    by_cases hg : truncGuard h
    · obtain ⟨hcw, hlt, hlm⟩ := truncStep_facts h hg.1 hg.2.1
      calc truncateLoop (n + 1 + 1) h = truncateLoop (n + 1) (truncStep h) := by
            simp only [truncateLoop, if_pos hg]
        _ = truncateLoop n (truncStep h) := ih _ (by omega)
        _ = truncateLoop (n + 1) h := by simp only [truncateLoop, if_pos hg]
    · simp only [truncateLoop, if_neg hg]

theorem truncateLoop_norm (n : Nat) (h : History)
    (hn : h.message_tokens.length ≤ n) :
    truncateLoop n h = truncateLoop h.message_tokens.length h := by
  obtain ⟨k, rfl⟩ : ∃ k, n = h.message_tokens.length + k := ⟨n - h.message_tokens.length, by omega⟩
  induction k with
  | zero => rfl
  | succ k ih =>
    rw [show h.message_tokens.length + (k + 1) = h.message_tokens.length + k + 1 from rfl,
      truncateLoop_fuel _ _ (by omega), ih (by omega)]

theorem truncateIters_le (n : Nat) (h : History) :
    truncateIters n h ≤ h.message_tokens.length := by
  induction n generalizing h with
  | zero => simp [truncateIters]
  | succ n ih =>
    by_cases hg : truncGuard h
    · simp only [truncateIters, if_pos hg]
      obtain ⟨hcw, hlt, hlm⟩ := truncStep_facts h hg.1 hg.2.1
      have := ih (truncStep h)
      omega
    · simp only [truncateIters, if_neg hg]
      exact Nat.zero_le _

theorem rolesAlt_head (r : String) (ms : List Message)
    (h : rolesAlt r ms = true) :
    ∀ m, ms.head? = some m → m.role = r := by
  rcases ms with _ | ⟨m0, ms⟩
  · intro m hm; simp at hm
  · intro m hm
    simp only [List.head?_cons, Option.some.injEq] at hm
    subst hm
    simp only [rolesAlt, Bool.and_eq_true, beq_iff_eq] at h
    exact h.1

/-! ## Claim theorems: history and truncation -/

/-- C1: for every structurally well-formed history with at least one
cost entry, `truncate` ends either within budget or with fewer than two
turns; when every recorded cost has input at least the placeholder
constant 25 (so the placeholder rewrite cannot add tokens) the total
never increases across the call; and the call is the identity when the
history is already within budget. -/
theorem c1_enforce_budget (h : History) (hwf : historyWF h)
    (hne : h.message_tokens ≠ []) :
    ((truncate h).total_tokens ≤ h.context_window_tokens ∨
      (truncate h).messages.length < 2) ∧
    (costsOK h.message_tokens → (truncate h).total_tokens ≤ h.total_tokens) ∧
    (h.total_tokens ≤ h.context_window_tokens → truncate h = h) := by
  have hne2 := hne
  refine ⟨?_, ?_, ?_⟩
  · by_cases hle : h.total_tokens ≤ h.context_window_tokens
    · left
      simp only [truncate, if_pos hle]
      exact hle
    · have hpost := truncateLoop_post h.message_tokens.length h (le_refl _) hwf
      have hcw := truncateLoop_cw h.message_tokens.length h
      simp only [truncate, if_neg hle]
      rcases hpost with h1 | h2
      · left; rwa [hcw] at h1
      · right; exact h2
  · intro hC
    by_cases hle : h.total_tokens ≤ h.context_window_tokens
    · simp only [truncate, if_pos hle]
      exact le_refl _
    · simp only [truncate, if_neg hle]
      exact truncateLoop_total_le _ _ hC
  · intro hle
    simp [truncate, hle]

/-- Witness for C1 at a concrete over-budget history. -/
theorem c1_enforce_budget_witness :
    historyWF w1 ∧ w1.message_tokens ≠ [] ∧ costsOK w1.message_tokens ∧
    ((truncate w1).total_tokens ≤ w1.context_window_tokens ∨
      (truncate w1).messages.length < 2) ∧
    (truncate w1).total_tokens ≤ w1.total_tokens :=
  ⟨by decide, by decide, by decide,
   (c1_enforce_budget w1 (by decide) (by decide)).1,
   (c1_enforce_budget w1 (by decide) (by decide)).2.1 (by decide)⟩

/-- C2: the spec scenario with budget 30.  The three assistant turns
with cumulative usages `(10,5)`, `(25,5)`, `(40,5)` give running totals
15, 30, 45 (incremental inputs 10 and 10 for the later turns);
`truncate` is a no-op at total 30, and at total 45 it evicts exactly
two user+assistant pairs, ending with total 30, one cost entry, and
the surviving oldest turn rewritten to the truncation notice. -/
theorem c2_scenario :
    c2s2.total_tokens = 15 ∧
    c2s4.total_tokens = 30 ∧
    c2s4.message_tokens = [(10, 5), (10, 5)] ∧
    truncate c2s4 = c2s4 ∧
    c2s6.total_tokens = 45 ∧
    c2s6.message_tokens = [(10, 5), (10, 5), (10, 5)] ∧
    c2s6.messages.length = 6 ∧
    c2s7.total_tokens = 30 ∧
    c2s7.message_tokens.length = 1 ∧
    c2s7.messages.length = 2 ∧
    c2s7.messages.head? = some TRUNCATION_MESSAGE := by decide

/-- C7 counterexample: a history reached by the control-loop call
sequence (user input, truncate, assistant turn with usage, tool-result
user turn, truncate) in which the final truncate performs an eviction
pass — the turn count drops from 3 to 1 — leaving a retained turn
count that is non-zero and odd, not even. -/
theorem c7_counterexample :
    lt4.messages.length = 3 ∧
    lt5.messages.length = 1 ∧
    ¬(lt5.messages.length % 2 = 0 ∨ lt5.messages.length = 0) := by decide

/-- C7, amended: at every `truncate` call site in the control loop the
turn sequence alternates roles starting with a user turn and has odd
length; `truncate` preserves the length's parity (so the retained turn
count stays odd, not even) and preserves the alternation, so the first
retained turn — when any exist — has role `user`. -/
theorem c7_truncate_parity (h : History)
    (halt : rolesAlt "user" h.messages = true)
    (hodd : h.messages.length % 2 = 1) :
    (truncate h).messages.length % 2 = 1 ∧
    rolesAlt "user" (truncate h).messages = true ∧
    (∀ m, (truncate h).messages.head? = some m → m.role = "user") := by
  by_cases hle : h.total_tokens ≤ h.context_window_tokens
  · simp only [truncate, if_pos hle]
    exact ⟨hodd, halt, rolesAlt_head _ _ halt⟩
  · simp only [truncate, if_neg hle]
    have hp := truncateLoop_parity h.message_tokens.length h
    have ha := truncateLoop_alt h.message_tokens.length h halt
    exact ⟨by omega, ha, rolesAlt_head _ _ ha⟩

/-- Witness for the amended C7 on the concrete control-loop trace. -/
theorem c7_truncate_parity_witness :
    rolesAlt "user" lt4.messages = true ∧ lt4.messages.length % 2 = 1 ∧
    (truncate lt4).messages.length % 2 = 1 ∧
    rolesAlt "user" (truncate lt4).messages = true ∧
    (∀ m, (truncate lt4).messages.head? = some m → m.role = "user") :=
  ⟨by decide, by decide,
   (c7_truncate_parity lt4 (by decide) (by decide)).1,
   (c7_truncate_parity lt4 (by decide) (by decide)).2.1,
   (c7_truncate_parity lt4 (by decide) (by decide)).2.2⟩

/-- C10: the eviction loop terminates because each iteration pops
exactly one cost entry while the guard requires the cost list to be
non-empty: `message_tokens.length` fuel is enough (any larger fuel
computes the same result), and the number of iterations performed is
at most `message_tokens.length`. -/
theorem c10_truncate_terminates (h : History) (n : Nat)
    (hn : h.message_tokens.length ≤ n) :
    (h.message_tokens ≠ [] → 2 ≤ h.messages.length →
      (truncStep h).message_tokens.length + 1 = h.message_tokens.length) ∧
    truncateIters n h ≤ h.message_tokens.length ∧
    truncateLoop n h = truncateLoop h.message_tokens.length h :=
  ⟨fun hne hlen => (truncStep_facts h hne hlen).2.1,
   truncateIters_le n h,
   truncateLoop_norm n h hn⟩

/-- Witness for C10 on the over-budget history with surplus fuel. -/
theorem c10_truncate_terminates_witness :
    w1.message_tokens.length ≤ 5 ∧
    (w1.message_tokens ≠ []) ∧ (2 ≤ w1.messages.length) ∧
    (truncStep w1).message_tokens.length + 1 = w1.message_tokens.length ∧
    truncateIters 5 w1 ≤ w1.message_tokens.length ∧
    truncateLoop 5 w1 = truncateLoop w1.message_tokens.length w1 :=
  ⟨by decide, by decide, by decide,
   (c10_truncate_terminates w1 5 (by decide)).1 (by decide) (by decide),
   (c10_truncate_terminates w1 5 (by decide)).2.1,
   (c10_truncate_terminates w1 5 (by decide)).2.2⟩

/-! ## Claim theorems: tool dispatcher -/

theorem executeSingleTool_id (call : ToolCall)
    (tool_dict : String → Option ToolImpl) :
    (executeSingleTool call tool_dict).tool_use_id = call.id := by
  rcases hd : tool_dict call.name with _ | t
  · simp [executeSingleTool, hd]
  · rcases he : t.execute call.input with v | e
    · simp [executeSingleTool, hd, he]
    · rcases e with m | m <;> simp [executeSingleTool, hd, he]

/-- C3: for every batch, every registry, and both execution modes, the
dispatcher returns exactly one result per request, aligned by position:
`results[i].tool_use_id = requests[i].id`.  The embedding returns a
plain list — every exception is folded into a result, none propagates. -/
theorem c3_dispatch_order (tool_calls : List ToolCall)
    (tool_dict : String → Option ToolImpl) (parallel : Bool) :
    (executeTools tool_calls tool_dict parallel).length = tool_calls.length ∧
    ∀ i (hi : i < (executeTools tool_calls tool_dict parallel).length)
      (hj : i < tool_calls.length),
      ((executeTools tool_calls tool_dict parallel).get ⟨i, hi⟩).tool_use_id =
        (tool_calls.get ⟨i, hj⟩).id := by
  have he : executeTools tool_calls tool_dict parallel =
      tool_calls.map (fun c => executeSingleTool c tool_dict) := by
    cases parallel <;> rfl
  constructor
  · rw [he, List.length_map]
  · intro i hi hj
    rw [List.get_of_eq he]
    simp only [List.get_eq_getElem, List.getElem_map]
    exact executeSingleTool_id _ _

/-- Witness for C3 on the spec dispatch scenario, both modes. -/
theorem c3_dispatch_order_witness :
    (executeTools [callEcho, callMissing] scenarioDict true).length =
      [callEcho, callMissing].length ∧
    ((executeTools [callEcho, callMissing] scenarioDict true).get
        ⟨1, by decide⟩).tool_use_id =
      (([callEcho, callMissing] : List ToolCall).get ⟨1, by decide⟩).id ∧
    (executeTools [callEcho, callMissing] scenarioDict false).length =
      [callEcho, callMissing].length :=
  ⟨(c3_dispatch_order [callEcho, callMissing] scenarioDict true).1,
   (c3_dispatch_order [callEcho, callMissing] scenarioDict true).2 1
     (by decide) (by decide),
   (c3_dispatch_order [callEcho, callMissing] scenarioDict false).1⟩

/-- C4 counterexample: `echo` is present in the registry and its
`execute` raises a `KeyError`; the dispatcher reports it as
`Tool <name> not found` instead of the claimed
`Error executing tool: <message>`, because the `except KeyError`
clause fires first. -/
theorem c4_counterexample :
    (keyErrDict callEcho.name).isSome = true ∧
    keyErrTool.execute callEcho.input = .exc (.keyError "x") ∧
    (executeSingleTool callEcho keyErrDict).is_error = some true ∧
    (executeSingleTool callEcho keyErrDict).content = "Tool \x27echo\x27 not found" ∧
    ¬((executeSingleTool callEcho keyErrDict).content = "Error executing tool: x") := by
  refine ⟨rfl, rfl, rfl, rfl, ?_⟩
  decide

/-- C4, amended: unknown tool → error result naming the tool; known
tool raising a `KeyError` → the same not-found error text (not the
`Error executing tool:` form); known tool raising any other exception
→ `Error executing tool: <message>`; success → stringified return
value with `is_error` absent. -/
theorem c4_single_tool_result (call : ToolCall)
    (tool_dict : String → Option ToolImpl) :
    (executeSingleTool call tool_dict).tool_use_id = call.id ∧
    (tool_dict call.name = none →
      (executeSingleTool call tool_dict).content =
        "Tool \x27" ++ call.name ++ "\x27 not found" ∧
      (executeSingleTool call tool_dict).is_error = some true) ∧
    (∀ t, tool_dict call.name = some t →
      (∀ v, t.execute call.input = .ret v →
        (executeSingleTool call tool_dict).content = pyStr v ∧
        (executeSingleTool call tool_dict).is_error = none) ∧
      (∀ m, t.execute call.input = .exc (.keyError m) →
        (executeSingleTool call tool_dict).content =
          "Tool \x27" ++ call.name ++ "\x27 not found" ∧
        (executeSingleTool call tool_dict).is_error = some true) ∧
      (∀ m, t.execute call.input = .exc (.other m) →
        (executeSingleTool call tool_dict).content =
          "Error executing tool: " ++ m ∧
        (executeSingleTool call tool_dict).is_error = some true)) := by
  refine ⟨executeSingleTool_id _ _, ?_, ?_⟩
  · intro h0
    simp [executeSingleTool, h0]
  · intro t ht
    refine ⟨?_, ?_, ?_⟩ <;> intro x hx <;> simp [executeSingleTool, ht, hx]

/-- Witness for the amended C4: the spec scenario (`echo` returning 1,
`missing` absent) plus an ordinary failure. -/
theorem c4_single_tool_result_witness :
    (executeSingleTool callEcho scenarioDict).content = "1" ∧
    (executeSingleTool callEcho scenarioDict).is_error = none ∧
    (executeSingleTool callMissing scenarioDict).content =
      "Tool \x27missing\x27 not found" ∧
    (executeSingleTool callMissing scenarioDict).is_error = some true ∧
    (executeSingleTool { id := "t3", name := "fail", input := [] } scenarioDict).content =
      "Error executing tool: boom" :=
  ⟨(((c4_single_tool_result callEcho scenarioDict).2.2 echoTool rfl).1
      (.vInt 1) rfl).1.trans rfl,
   (((c4_single_tool_result callEcho scenarioDict).2.2 echoTool rfl).1
      (.vInt 1) rfl).2,
   ((c4_single_tool_result callMissing scenarioDict).2.1 rfl).1.trans rfl,
   ((c4_single_tool_result callMissing scenarioDict).2.1 rfl).2,
   (((c4_single_tool_result { id := "t3", name := "fail", input := [] }
      scenarioDict).2.2 failTool rfl).2.2 "boom" rfl).1.trans rfl⟩

/-! ## Claim theorems: connection lifecycle -/

/-- C5 counterexample: when releasing the handshake session raises, the
error is logged and not re-raised, but the transport channel's release
is skipped — refuting "never causes the release of the transport
channel to be skipped". -/
theorem c5_counterexample :
    (connAExit { session_ctx := some (.raises "session close failed"),
                 rw_ctx := some .ok }).raised = none ∧
    (connAExit { session_ctx := some (.raises "session close failed"),
                 rw_ctx := some .ok }).logged =
      some "Error during cleanup: session close failed" ∧
    (connAExit { session_ctx := some (.raises "session close failed"),
                 rw_ctx := some .ok }).rwExitCalled = false := by
  decide

/-- C5, amended: `__aexit__` never raises and always resets the state
fields; the session release is attempted whenever a session context
exists; the transport release is attempted only when the session
release does not raise — when it raises, the failure is logged and the
transport release is skipped. -/
theorem c5_aexit (s : ConnState) :
    (connAExit s).raised = none ∧
    (connAExit s).session_ctx = none ∧
    (connAExit s).rw_ctx = none ∧
    (connAExit s).sessionExitCalled = s.session_ctx.isSome ∧
    (isRaises s.session_ctx = false →
      (connAExit s).rwExitCalled = s.rw_ctx.isSome ∧
      (isRaises s.rw_ctx = true → (connAExit s).logged.isSome = true)) ∧
    (isRaises s.session_ctx = true →
      (connAExit s).rwExitCalled = false ∧
      (connAExit s).logged.isSome = true) := by
  obtain ⟨sc, rc⟩ := s
  rcases sc with _ | (_ | m1) <;> rcases rc with _ | (_ | m2) <;>
    simp [connAExit, isRaises]

/-- Witness for the amended C5: one state where the transport release
fails independently, one where the session release fails and skips it. -/
theorem c5_aexit_witness :
    (connAExit { session_ctx := some .ok,
                 rw_ctx := some (.raises "rw failed") }).rwExitCalled =
      (some (CtxBehavior.raises "rw failed")).isSome ∧
    (connAExit { session_ctx := some .ok,
                 rw_ctx := some (.raises "rw failed") }).logged.isSome = true ∧
    (connAExit { session_ctx := some (.raises "boom"),
                 rw_ctx := some .ok }).rwExitCalled = false ∧
    (connAExit { session_ctx := some (.raises "boom"),
                 rw_ctx := some .ok }).logged.isSome = true :=
  ⟨((c5_aexit ⟨some .ok, some (.raises "rw failed")⟩).2.2.2.2.1 rfl).1,
   ((c5_aexit ⟨some .ok, some (.raises "rw failed")⟩).2.2.2.2.1 rfl).2 rfl,
   ((c5_aexit ⟨some (.raises "boom"), some .ok⟩).2.2.2.2.2 rfl).1,
   ((c5_aexit ⟨some (.raises "boom"), some .ok⟩).2.2.2.2.2 rfl).2⟩

/-- C6 counterexample: the transport channel opens, the handshake
raises; the failure propagates out of `__aenter__` with zero transport
close calls — not the exactly one the claim requires. -/
theorem c6_counterexample :
    (connAEnter { rwEnter := .ok, sessionEnter := .ok,
                  handshake := .raises "handshake failed" }).raised =
      some "handshake failed" ∧
    (connAEnter { rwEnter := .ok, sessionEnter := .ok,
                  handshake := .raises "handshake failed" }).rwCloseCalls = 0 ∧
    ¬((connAEnter { rwEnter := .ok, sessionEnter := .ok,
                    handshake := .raises "handshake failed" }).rwCloseCalls = 1) := by
  decide

/-- C6, amended: when the transport channel opens and the handshake
raises, the failure propagates out of `__aenter__` with zero close
calls on the transport channel (the channel leaks);
`setup_mcp_connections` never registers the connection on the exit
stack, catches the failure, and skips the server. -/
theorem c6_handshake_leak (b : EnterBehavior) (m : String)
    (h1 : b.rwEnter = .ok) (h2 : b.sessionEnter = .ok)
    (h3 : b.handshake = .raises m) :
    connAEnter b = { raised := some m, rwCloseCalls := 0 } ∧
    setupOne b = { registeredOnStack := false, rwCloseCalls := 0,
                   raisedOut := none, serverSkipped := true } := by
  obtain ⟨r, s, k⟩ := b
  simp only at h1 h2 h3
  subst h1
  subst h2
  subst h3
  exact ⟨rfl, rfl⟩

/-- Witness for the amended C6. -/
theorem c6_handshake_leak_witness :
    connAEnter { rwEnter := .ok, sessionEnter := .ok,
                 handshake := .raises "init failed" } =
      { raised := some "init failed", rwCloseCalls := 0 } ∧
    setupOne { rwEnter := .ok, sessionEnter := .ok,
               handshake := .raises "init failed" } =
      { registeredOnStack := false, rwCloseCalls := 0,
        raisedOut := none, serverSkipped := true } :=
  c6_handshake_leak _ "init failed" rfl rfl rfl

/-! ## Claim theorems: request parameter assembly -/

/-- C8: every colliding key of the computed defaults is overridden
wholesale by the caller's map; the one exception is `extra_headers`,
which is popped and merged entry-by-entry over the built-in default
header map `{anthropic-beta: code-execution-2025-05-22}` — caller
entries win per key, default entries survive for keys the caller does
not set. -/
theorem c8_param_merge (ag : AgentState) :
    (∀ k v, ag.message_params k = some v → prepareMessageParams ag k = some v) ∧
    (∀ k, ag.message_params k = none → prepareMessageParams ag k = baseParams ag k) ∧
    (ag.message_params "extra_headers" = none →
      buildRequest ag = some (prepareMessageParams ag, defaultHeaders)) ∧
    (∀ custom, ag.message_params "extra_headers" = some (.pHeaders custom) →
      buildRequest ag =
        some (removeKey (prepareMessageParams ag) "extra_headers",
              pyMerge defaultHeaders custom) ∧
      (∀ k v, ¬(k = "extra_headers") → ag.message_params k = some v →
        removeKey (prepareMessageParams ag) "extra_headers" k = some v) ∧
      (∀ hk v, custom hk = some v → pyMerge defaultHeaders custom hk = some v) ∧
      (∀ hk, custom hk = none → pyMerge defaultHeaders custom hk = defaultHeaders hk)) := by
  have hbase : baseParams ag "extra_headers" = none := rfl
  refine ⟨?_, ?_, ?_, ?_⟩
  · intro k v hk
    simp [prepareMessageParams, pyMerge, hk]
  · intro k hk
    simp [prepareMessageParams, pyMerge, hk]
  · intro h0
    have hnone : prepareMessageParams ag "extra_headers" = none := by
      simp [prepareMessageParams, pyMerge, h0, hbase]
    simp [buildRequest, hnone]
  · intro custom hc
    have hph : prepareMessageParams ag "extra_headers" = some (.pHeaders custom) := by
      simp [prepareMessageParams, pyMerge, hc]
    refine ⟨?_, ?_, ?_, ?_⟩
    · simp [buildRequest, hph]
    · intro k v hk hv
      simp [removeKey, hk, prepareMessageParams, pyMerge, hv]
    · intro hk v hv
      simp [pyMerge, hv]
    · intro hk hv
      simp [pyMerge, hv]

/-- Witness for C8: a caller map overriding `temperature` and
supplying a custom header map without `anthropic-beta`; the override
wins, the custom header entry is present, and the default beta header
survives the merge. -/
theorem c8_param_merge_witness :
    prepareMessageParams w8 "temperature" = some (.pInt 7) ∧
    buildRequest w8 = some (removeKey (prepareMessageParams w8) "extra_headers",
                            pyMerge defaultHeaders w8headers) ∧
    pyMerge defaultHeaders w8headers "X-Custom" = some "v" ∧
    pyMerge defaultHeaders w8headers "anthropic-beta" = defaultHeaders "anthropic-beta" :=
  ⟨(c8_param_merge w8).1 "temperature" _ rfl,
   ((c8_param_merge w8).2.2.2 w8headers rfl).1,
   ((c8_param_merge w8).2.2.2 w8headers rfl).2.2.1 "X-Custom" "v" rfl,
   ((c8_param_merge w8).2.2.2 w8headers rfl).2.2.2 "anthropic-beta" rfl⟩

/-! ## Claim theorems: cache marker placement -/

theorem setLastCached_eq : ∀ (ms : List Message) (m : Message),
    ms.getLast? = some m →
    setLastCached ms =
      ms.dropLast ++ [{ role := m.role, content := m.content.map addCacheControl }]
  | [], m, hm => by simp at hm
  | [m0], m, hm => by
      simp only [List.getLast?_singleton, Option.some.injEq] at hm
      subst hm
      rfl
  | m0 :: m1 :: ms, m, hm => by
      rw [List.getLast?_cons_cons] at hm
      have ih := setLastCached_eq (m1 :: ms) m hm
      show m0 :: setLastCached (m1 :: ms) = _
      rw [ih]
      rfl

/-- C9: `format_for_api` returns a turn sequence whose cache marker
appears only on the final turn's blocks — every block of every earlier
output turn is marker-free, and when caching is enabled every block of
the final output turn carries the marker — and the call leaves the
persisted history unchanged. -/
theorem c9_cache_marker (h : History) (hm : msgsMarkerFree h.messages)
    (hne : h.messages ≠ []) :
    (∀ m ∈ (formatForApi h).dropLast, ∀ b ∈ m.content, b.cache_control = none) ∧
    (h.enable_caching = true →
      ∀ m, (formatForApi h).getLast? = some m →
        ∀ b ∈ m.content, b.cache_control = some "ephemeral") ∧
    (formatForApiState h).2 = h := by
  refine ⟨?_, ?_, rfl⟩
  · intro m hmem b hb
    by_cases hc : h.enable_caching = true ∧ h.messages ≠ []
    · obtain ⟨last, hlast⟩ :=
        Option.isSome_iff_exists.mp (List.getLast?_isSome.mpr hne)
      rw [formatForApi, if_pos hc, setLastCached_eq _ _ hlast,
        List.dropLast_concat] at hmem
      exact hm m (List.dropLast_subset _ hmem) b hb
    · rw [formatForApi, if_neg hc] at hmem
      exact hm m (List.dropLast_subset _ hmem) b hb
  · intro hcache m hlastF b hb
    have hc : h.enable_caching = true ∧ h.messages ≠ [] := ⟨hcache, hne⟩
    obtain ⟨last, hlast⟩ :=
      Option.isSome_iff_exists.mp (List.getLast?_isSome.mpr hne)
    rw [formatForApi, if_pos hc, setLastCached_eq _ _ hlast,
      List.getLast?_concat] at hlastF
    obtain rfl := Option.some_injective _ hlastF.symm
    obtain ⟨b0, hb0, rfl⟩ := List.mem_map.mp hb
    rfl

/-- Witness for C9 on a concrete marker-free two-turn history. -/
theorem c9_cache_marker_witness :
    msgsMarkerFree w9.messages ∧ w9.messages ≠ [] ∧
    (∀ m ∈ (formatForApi w9).dropLast, ∀ b ∈ m.content, b.cache_control = none) ∧
    (∀ m, (formatForApi w9).getLast? = some m →
      ∀ b ∈ m.content, b.cache_control = some "ephemeral") ∧
    (formatForApiState w9).2 = w9 :=
  ⟨by decide, by decide,
   (c9_cache_marker w9 (by decide) (by decide)).1,
   (c9_cache_marker w9 (by decide) (by decide)).2.1 rfl,
   (c9_cache_marker w9 (by decide) (by decide)).2.2⟩

end AgentSpec
